import Mathlib

/-!
Verification of the starknet-devnet JSON-RPC front end (blueprints/rpc.py and
blueprints/rpc/schema.py), via a shallow embedding of the Python source in Lean.

Conventions of the embedding:
* Python non-negative integers are Nat, Python ints that may go negative are Int.
* Python strings are String, Python bytes values are List Nat (one Nat per byte).
* Python dicts with string keys are association lists (List (String × _)) in
  insertion order; assignment d[k] = v updates the value in place when the key
  is present and appends otherwise, exactly like CPython dicts.
* Fallible Python code (raise / unhandled exceptions) is modelled with Except:
  RpcError becomes RpcFailure.rpcError, any other exception escaping the
  handler becomes RpcFailure.pyError.
* The external chain-state collaborator (state.starknet_wrapper) is modelled by
  an explicit DevnetState record of lookup functions; handlers take it as an
  argument.
-/

namespace Devnet

/-! ## Python primitives: hex formatting, lstrip, int(·, 16) -/

/-- Lowercase hexadecimal digit character, as produced by Python hex(). -/
def hexDigitChar (n : Nat) : Char :=
  if n < 10 then Char.ofNat ('0'.toNat + n)
  else if n < 16 then Char.ofNat ('a'.toNat + (n - 10))
  else '*'

/-- Fuel-driven most-significant-first base-16 digit expansion (the fuel only
bounds recursion depth; pyHexDigits always passes enough). -/
def pyHexDigitsAux : Nat → Nat → List Char
  | 0, _ => []
  | Nat.succ fuel, n =>
    if n < 16 then [hexDigitChar n]
    else pyHexDigitsAux fuel (n / 16) ++ [hexDigitChar (n % 16)]

/-- Digits of n in base 16, most significant first, no leading zeros except
for n = 0 which is the single digit 0: the digits Python hex(n) prints after
the 0x prefix. -/
def pyHexDigits (n : Nat) : List Char := pyHexDigitsAux (n + 1) n

/-- Python hex(n) for a non-negative n, as a character list: 0x then digits. -/
def pyHexChars (n : Nat) : List Char := '0' :: 'x' :: pyHexDigits n

/-- Python hex(n) for a non-negative n. -/
def pyHexStr (n : Nat) : String := String.mk (pyHexChars n)

/-- Python s.lstrip(chars): drop leading characters contained in chars (a
character class, not a literal prefix). -/
def pyLstrip (s : List Char) (chars : List Char) : List Char :=
  s.dropWhile (fun c => chars.contains c)

/-- Numeric value of a hex digit character produced by hexDigitChar. -/
def hexCharVal (c : Char) : Nat :=
  if '0' ≤ c ∧ c ≤ '9' then c.toNat - '0'.toNat
  else if 'a' ≤ c ∧ c ≤ 'f' then c.toNat - 'a'.toNat + 10
  else 0

/-- Numeric value of a hex digit character, upper or lower case, or none. -/
def hexCharVal? (c : Char) : Option Nat :=
  if '0' ≤ c ∧ c ≤ '9' then some (c.toNat - '0'.toNat)
  else if 'a' ≤ c ∧ c ≤ 'f' then some (c.toNat - 'a'.toNat + 10)
  else if 'A' ≤ c ∧ c ≤ 'F' then some (c.toNat - 'A'.toNat + 10)
  else none

/-- Python int(s, 16) on the hex strings the handlers receive: an optional 0x
or 0X prefix followed by at least one hex digit; none models ValueError. -/
def pyIntHex (s : String) : Option Nat :=
  let l :=
    match s.data with
    | '0' :: 'x' :: rest => rest
    | '0' :: 'X' :: rest => rest
    | other => other
  match l with
  | [] => none
  | _ =>
    l.foldl
      (fun acc c =>
        match acc, hexCharVal? c with
        | some a, some v => some (16 * a + v)
        | _, _ => none)
      (some 0)

/-- Python bytes.hex(): two lowercase hex characters per byte. -/
def bytesHex (bs : List Nat) : String :=
  String.mk (List.flatten (bs.map (fun b => [hexDigitChar (b / 16), hexDigitChar (b % 16)])))

/-! ## Wire codec (rpc.py lines 742-754) -/

/-- Embedding of rpc_felt: return "0x0" + hex(value).lstrip("0x"). The lstrip
argument is a character class, so it eats every leading 0 and x character of
the hex string, not just the literal 0x prefix. -/
def rpc_felt (value : Nat) : String :=
  String.mk (('0' :: 'x' :: '0' :: []) ++ pyLstrip (pyHexChars value) ('0' :: 'x' :: []))

/-- Embedding of rpc_root: root = root[1:]; return "0x0" + root. -/
def rpc_root (root : String) : String :=
  String.mk (('0' :: 'x' :: '0' :: []) ++ root.data.drop 1)

example : rpc_felt 0 = "0x0" := by decide
example : rpc_felt 1 = "0x01" := by decide
example : rpc_felt 255 = "0x0ff" := by decide
example : rpc_root "0abc" = "0x0abc" := by decide
example : pyIntHex "0x1f" = some 31 := by decide
example : pyIntHex "latest" = none := by decide
example : bytesHex [0, 171] = "00ab" := by decide

/-! ## Correctness lemmas for the hex expansion -/

/-- Fold a digit list back into a number. -/
def pyHexVal (l : List Char) : Nat :=
  l.foldl (fun acc c => 16 * acc + hexCharVal c) 0

theorem hexCharVal_hexDigitChar {d : Nat} (h : d < 16) :
    hexCharVal (hexDigitChar d) = d := by
  interval_cases d <;> rfl

theorem pyHexVal_append_singleton (l : List Char) (c : Char) :
    pyHexVal (l ++ [c]) = 16 * pyHexVal l + hexCharVal c := by
  simp [pyHexVal, List.foldl_append]

theorem pyHexDigitsAux_val :
    ∀ (fuel n : Nat), n < 16 ^ fuel → pyHexVal (pyHexDigitsAux fuel n) = n := by
  intro fuel
  induction fuel with
  | zero =>
    intro n hn
    interval_cases n
    rfl
  | succ fuel ih =>
    intro n hn
    by_cases hsmall : n < 16
    · simp only [pyHexDigitsAux, if_pos hsmall]
      simp [pyHexVal, hexCharVal_hexDigitChar hsmall]
    · simp only [pyHexDigitsAux, if_neg hsmall]
      rw [pyHexVal_append_singleton]
      have hdiv : n / 16 < 16 ^ fuel := by
        rw [Nat.div_lt_iff_lt_mul (by norm_num)]
        calc n < 16 ^ (fuel + 1) := hn
        _ = 16 ^ fuel * 16 := by ring
      rw [ih (n / 16) hdiv, hexCharVal_hexDigitChar (Nat.mod_lt n (by norm_num))]
      omega

theorem lt_sixteen_pow_succ (n : Nat) : n < 16 ^ (n + 1) := by
  calc n < 16 ^ n := Nat.lt_pow_self (by norm_num) n
  _ ≤ 16 ^ (n + 1) := Nat.pow_le_pow_right (by norm_num) (Nat.le_succ n)

theorem pyHexVal_pyHexDigits (n : Nat) : pyHexVal (pyHexDigits n) = n :=
  pyHexDigitsAux_val (n + 1) n (lt_sixteen_pow_succ n)

theorem pyHexDigits_injective : Function.Injective pyHexDigits := by
  intro a b h
  have := pyHexVal_pyHexDigits a
  rw [h, pyHexVal_pyHexDigits b] at this
  exact this.symm

/-- For a positive n the leading hex digit is neither 0 nor x, so the
character-class lstrip of rpc_felt stops right after the 0x prefix. -/
theorem pyHexDigitsAux_head :
    ∀ (fuel n : Nat), 0 < n → n < 16 ^ fuel →
      ∃ c cs, pyHexDigitsAux fuel n = c :: cs ∧
        (('0' :: 'x' :: []).contains c) = false := by
  intro fuel
  induction fuel with
  | zero =>
    intro n hpos hn
    exact absurd hn (by omega)
  | succ fuel ih =>
    intro n hpos hn
    by_cases hsmall : n < 16
    · refine ⟨hexDigitChar n, [], by simp [pyHexDigitsAux, if_pos hsmall], ?_⟩
      interval_cases n <;> decide
    · have hdivpos : 0 < n / 16 := Nat.div_pos (by omega) (by norm_num)
      have hdiv : n / 16 < 16 ^ fuel := by
        rw [Nat.div_lt_iff_lt_mul (by norm_num)]
        calc n < 16 ^ (fuel + 1) := hn
        _ = 16 ^ fuel * 16 := by ring
      obtain ⟨c, cs, hcons, hc⟩ := ih (n / 16) hdivpos hdiv
      exact ⟨c, cs ++ [hexDigitChar (n % 16)],
        by simp [pyHexDigitsAux, if_neg hsmall, hcons], hc⟩

theorem pyHexDigits_head (n : Nat) (hpos : 0 < n) :
    ∃ c cs, pyHexDigits n = c :: cs ∧ (('0' :: 'x' :: []).contains c) = false :=
  pyHexDigitsAux_head (n + 1) n hpos (lt_sixteen_pow_succ n)

/-- What the lstrip of rpc_felt leaves: nothing for 0, the canonical digit
list for positive values. -/
theorem pyLstrip_pyHexChars (n : Nat) :
    pyLstrip (pyHexChars n) ('0' :: 'x' :: []) =
      if n = 0 then [] else pyHexDigits n := by
  by_cases h0 : n = 0
  · subst h0; decide
  · obtain ⟨c, cs, hcons, hc⟩ := pyHexDigits_head n (Nat.pos_of_ne_zero h0)
    have hc2 : c ≠ '0' ∧ c ≠ 'x' := by simpa using hc
    simp only [pyLstrip, pyHexChars, if_neg h0, hcons]
    rw [List.dropWhile_cons_of_pos (by decide), List.dropWhile_cons_of_pos (by decide),
      List.dropWhile_cons_of_neg (by simp [hc2.1, hc2.2])]

theorem rpc_felt_eq (n : Nat) :
    rpc_felt n = String.mk ('0' :: 'x' :: '0' :: (if n = 0 then [] else pyHexDigits n)) := by
  simp [rpc_felt, pyLstrip_pyHexChars]

theorem pyHexDigits_ne_nil (n : Nat) (hpos : 0 < n) : pyHexDigits n ≠ [] := by
  obtain ⟨c, cs, hcons, -⟩ := pyHexDigits_head n hpos
  simp [hcons]

theorem rpc_felt_injective : Function.Injective rpc_felt := by
  intro a b h
  rw [rpc_felt_eq, rpc_felt_eq] at h
  have htail : (if a = 0 then [] else pyHexDigits a) = (if b = 0 then [] else pyHexDigits b) := by
    have := congrArg String.data h
    simpa using this
  by_cases ha : a = 0 <;> by_cases hb : b = 0
  · rw [ha, hb]
  · rw [if_pos ha, if_neg hb] at htail
    exact absurd htail.symm (pyHexDigits_ne_nil b (Nat.pos_of_ne_zero hb))
  · rw [if_neg ha, if_pos hb] at htail
    exact absurd htail (pyHexDigits_ne_nil a (Nat.pos_of_ne_zero ha))
  · rw [if_neg ha, if_neg hb] at htail
    exact pyHexDigits_injective htail

/-! ## Python values and dict operations -/

/-- Values the translated DTOs are built from (the relevant fragment of Python
data: strings, ints, booleans, None, lists and string-keyed dicts). -/
inductive PyVal where
  | str : String → PyVal
  | int : Int → PyVal
  | bool : Bool → PyVal
  | none : PyVal
  | list : List PyVal → PyVal
  | dict : List (String × PyVal) → PyVal

/-- A Python dict with string keys, in insertion order. -/
abbrev PyDict := List (String × PyVal)

/-- String content of a PyVal known to be a string (DTO hash fields). -/
def PyVal.asStr : PyVal → String
  | .str s => s
  | _ => ""

section PyDictOps

variable {α : Type}

/-- First value stored under key k (Python d[k] / d.get(k)). -/
def pyDictGet? (d : List (String × α)) (k : String) : Option α :=
  match d with
  | [] => Option.none
  | p :: rest => if p.1 = k then some p.2 else pyDictGet? rest k

/-- Python k in d. -/
def pyDictHasKey (d : List (String × α)) (k : String) : Bool :=
  d.any (fun p => p.1 == k)

/-- Python d[k] = v: overwrite in place when the key exists, append otherwise
(CPython dicts keep the original position of an updated key). -/
def pyDictSet (d : List (String × α)) (k : String) (v : α) : List (String × α) :=
  if d.any (fun p => p.1 == k) then d.map (fun p => if p.1 = k then (k, v) else p)
  else d ++ [(k, v)]

/-- Python left-to-right dict merge: b is assigned entry by entry into a copy
of a, so values of b win on key collisions. A dict literal spreading a first
and b second evaluates to exactly this. -/
def pyDictMerge (a b : List (String × α)) : List (String × α) :=
  b.foldl (fun acc p => pyDictSet acc p.1 p.2) a

theorem pyDictGet?_append_of_none (a b : List (String × α)) (k : String)
    (ha : pyDictGet? a k = Option.none) : pyDictGet? (a ++ b) k = pyDictGet? b k := by
  induction a with
  | nil => rfl
  | cons p rest ih =>
    by_cases hp : p.1 = k
    · simp [pyDictGet?, hp] at ha
    · simp only [pyDictGet?, if_neg hp] at ha
      simp only [List.cons_append, pyDictGet?, if_neg hp]
      exact ih ha

theorem pyDictGet?_append_of_some (a b : List (String × α)) (k : String) (v : α)
    (ha : pyDictGet? a k = some v) : pyDictGet? (a ++ b) k = some v := by
  induction a with
  | nil => simp [pyDictGet?] at ha
  | cons p rest ih =>
    by_cases hp : p.1 = k
    · simp only [pyDictGet?, if_pos hp] at ha
      simp only [List.cons_append, pyDictGet?, if_pos hp]
      exact ha
    · simp only [pyDictGet?, if_neg hp] at ha
      simp only [List.cons_append, pyDictGet?, if_neg hp]
      exact ih ha

theorem pyDictGet?_eq_none_of_not_any (d : List (String × α)) (k : String)
    (h : d.any (fun p => p.1 == k) = false) : pyDictGet? d k = Option.none := by
  induction d with
  | nil => rfl
  | cons p rest ih =>
    simp only [List.any_cons, Bool.or_eq_false_iff] at h
    have hp : ¬ p.1 = k := by simpa using h.1
    simp only [pyDictGet?, if_neg hp]
    exact ih h.2

theorem pyDictGet?_map_overwrite_self (d : List (String × α)) (k : String) (v : α)
    (h : d.any (fun p => p.1 == k) = true) :
    pyDictGet? (d.map (fun p => if p.1 = k then (k, v) else p)) k = some v := by
  induction d with
  | nil => simp at h
  | cons p rest ih =>
    by_cases hp : p.1 = k
    · simp only [List.map_cons, if_pos hp, pyDictGet?]
      rfl
    · have hrest : rest.any (fun p => p.1 == k) = true := by
        simp only [List.any_cons, Bool.or_eq_true_iff] at h
        rcases h with h | h
        · exact absurd (by simpa using h) hp
        · exact h
      simp only [List.map_cons, if_neg hp, pyDictGet?, if_neg hp]
      exact ih hrest

theorem pyDictGet?_map_overwrite_other (d : List (String × α)) (k k' : String) (v : α)
    (hne : k' ≠ k) :
    pyDictGet? (d.map (fun p => if p.1 = k then (k, v) else p)) k' = pyDictGet? d k' := by
  induction d with
  | nil => rfl
  | cons p rest ih =>
    by_cases hp : p.1 = k
    · simp only [List.map_cons, if_pos hp, pyDictGet?]
      rw [if_neg (fun h => hne h.symm), if_neg (by rw [hp]; exact fun h => hne h.symm)]
      exact ih
    · simp only [List.map_cons, if_neg hp, pyDictGet?]
      by_cases hpk2 : p.1 = k'
      · rw [if_pos hpk2, if_pos hpk2]
      · rw [if_neg hpk2, if_neg hpk2]
        exact ih

theorem pyDictGet?_set_self (d : List (String × α)) (k : String) (v : α) :
    pyDictGet? (pyDictSet d k v) k = some v := by
  unfold pyDictSet
  by_cases hmem : d.any (fun p => p.1 == k)
  · rw [if_pos hmem]
    exact pyDictGet?_map_overwrite_self d k v hmem
  · rw [if_neg hmem]
    have hfalse : d.any (fun p => p.1 == k) = false := by
      rw [← Bool.not_eq_true]; exact hmem
    rw [pyDictGet?_append_of_none d _ k (pyDictGet?_eq_none_of_not_any d k hfalse)]
    simp [pyDictGet?]

theorem pyDictGet?_set_other (d : List (String × α)) (k k' : String) (v : α)
    (hne : k' ≠ k) : pyDictGet? (pyDictSet d k v) k' = pyDictGet? d k' := by
  unfold pyDictSet
  by_cases hmem : d.any (fun p => p.1 == k)
  · rw [if_pos hmem]
    exact pyDictGet?_map_overwrite_other d k k' v hne
  · rw [if_neg hmem]
    cases hd : pyDictGet? d k' with
    | some v2 => exact pyDictGet?_append_of_some d _ k' v2 hd
    | none =>
      rw [pyDictGet?_append_of_none d _ k' hd]
      have hkk : ¬ k = k' := fun h => hne h.symm
      simp [pyDictGet?, hkk]

theorem pyDictHasKey_map_overwrite (d : List (String × α)) (k k' : String) (v : α) :
    pyDictHasKey (d.map (fun p => if p.1 = k then (k, v) else p)) k' = pyDictHasKey d k' := by
  induction d with
  | nil => rfl
  | cons p rest ih =>
    simp only [pyDictHasKey, List.map_cons, List.any_cons] at ih ⊢
    rw [ih]
    by_cases hp : p.1 = k
    · rw [if_pos hp, hp]
    · rw [if_neg hp]

theorem pyDictHasKey_append (a b : List (String × α)) (k : String) :
    pyDictHasKey (a ++ b) k = (pyDictHasKey a k || pyDictHasKey b k) := by
  simp [pyDictHasKey, List.any_append]

theorem pyDictHasKey_set (d : List (String × α)) (k k' : String) (v : α) :
    pyDictHasKey (pyDictSet d k v) k' = (pyDictHasKey d k' || (k == k')) := by
  unfold pyDictSet
  by_cases hmem : d.any (fun p => p.1 == k)
  · rw [if_pos hmem, pyDictHasKey_map_overwrite]
    by_cases hkk : k = k'
    · subst hkk
      have hd : pyDictHasKey d k = true := hmem
      simp [hd]
    · simp [hkk]
  · rw [if_neg hmem, pyDictHasKey_append]
    simp [pyDictHasKey]

theorem pyDictHasKey_iff_get? (d : List (String × α)) (k : String) :
    pyDictHasKey d k = true ↔ ∃ v, pyDictGet? d k = some v := by
  induction d with
  | nil => simp [pyDictHasKey, pyDictGet?]
  | cons p rest ih =>
    by_cases hp : p.1 = k
    · simp [pyDictHasKey, List.any_cons, hp, pyDictGet?]
    · simp only [pyDictHasKey, List.any_cons, pyDictGet?, if_neg hp]
      rw [Bool.or_eq_true_iff]
      constructor
      · intro h
        rcases h with h | h
        · exact absurd (by simpa using h) hp
        · exact ih.mp h
      · intro h
        exact Or.inr (ih.mpr h)

theorem pyDictMerge_nil (a : List (String × α)) : pyDictMerge a [] = a := rfl

theorem pyDictMerge_cons (a : List (String × α)) (k : String) (v : α)
    (b : List (String × α)) :
    pyDictMerge a ((k, v) :: b) = pyDictMerge (pyDictSet a k v) b := rfl

theorem pyDictHasKey_merge (b : List (String × α)) :
    ∀ (a : List (String × α)) (k : String),
      pyDictHasKey (pyDictMerge a b) k = (pyDictHasKey a k || pyDictHasKey b k) := by
  induction b with
  | nil =>
    intro a k
    simp [pyDictMerge_nil, pyDictHasKey]
  | cons p rest ih =>
    intro a k
    obtain ⟨k1, v1⟩ := p
    rw [pyDictMerge_cons, ih, pyDictHasKey_set]
    simp only [pyDictHasKey, List.any_cons]
    rw [Bool.or_assoc]

theorem pyDictGet?_merge_right_none (b : List (String × α)) :
    ∀ (a : List (String × α)) (k : String),
      pyDictGet? b k = Option.none →
      pyDictGet? (pyDictMerge a b) k = pyDictGet? a k := by
  induction b with
  | nil => intro a k _; rfl
  | cons p rest ih =>
    intro a k hb
    obtain ⟨k1, v1⟩ := p
    have hk1 : ¬ k1 = k := by
      intro h
      simp [pyDictGet?, h] at hb
    have hrest : pyDictGet? rest k = Option.none := by
      simpa [pyDictGet?, hk1] using hb
    rw [pyDictMerge_cons, ih _ k hrest,
      pyDictGet?_set_other _ _ _ _ (fun h => hk1 h.symm)]

theorem pyDictGet?_merge_right_some (b : List (String × α)) :
    ∀ (a : List (String × α)) (k : String) (v : α),
      (b.map Prod.fst).Nodup → pyDictGet? b k = some v →
      pyDictGet? (pyDictMerge a b) k = some v := by
  induction b with
  | nil => intro a k v _ hb; simp [pyDictGet?] at hb
  | cons p rest ih =>
    intro a k v hnd hb
    obtain ⟨k1, v1⟩ := p
    rw [List.map_cons, List.nodup_cons] at hnd
    by_cases hk1 : k1 = k
    · have hv : v1 = v := by simpa [pyDictGet?, hk1] using hb
      subst hv
      have hrest : pyDictGet? rest k = Option.none := by
        apply pyDictGet?_eq_none_of_not_any
        cases hany : rest.any (fun p => p.1 == k) with
        | false => rfl
        | true =>
          exfalso
          obtain ⟨q, hq, hqk⟩ := List.any_eq_true.mp hany
          have hq1 : q.1 = k1 := by
            have hqk2 : q.1 = k := by simpa using hqk
            rw [hqk2, hk1]
          have hmem2 : Prod.fst q ∈ List.map Prod.fst rest :=
            List.mem_map_of_mem Prod.fst hq
          exact hnd.1 (hq1 ▸ hmem2)
      rw [pyDictMerge_cons, pyDictGet?_merge_right_none rest _ k hrest,
        hk1, pyDictGet?_set_self]
    · have hrest : pyDictGet? rest k = some v := by
        simpa [pyDictGet?, hk1] using hb
      rw [pyDictMerge_cons]
      exact ih _ k v hnd.2 hrest

end PyDictOps

/-! ## Gateway domain entities (inputs of the Domain Translator) -/

/-- starkware TransactionStatus enumeration. -/
inductive TransactionStatus where
  | NOT_RECEIVED | RECEIVED | PENDING | REJECTED | ACCEPTED_ON_L2 | ACCEPTED_ON_L1
deriving DecidableEq

/-- starkware feeder-gateway block status enumeration; only the name is read
(block.status.name). -/
inductive BlockStatus where
  | PENDING | ABORTED | REVERTED | ACCEPTED_ON_L2 | ACCEPTED_ON_L1
deriving DecidableEq

/-- Python Enum .name of a block status. -/
def BlockStatus.name : BlockStatus → String
  | .PENDING => "PENDING"
  | .ABORTED => "ABORTED"
  | .REVERTED => "REVERTED"
  | .ACCEPTED_ON_L2 => "ACCEPTED_ON_L2"
  | .ACCEPTED_ON_L1 => "ACCEPTED_ON_L1"

/-- Fields of InvokeSpecificInfo read by rpc_invoke_transaction. -/
structure InvokeSpecificInfo where
  contract_address : Nat
  entry_point_selector : Nat
  calldata : List Nat
  max_fee : Nat
  transaction_hash : Nat

/-- Fields of DeploySpecificInfo read by rpc_deploy_transaction. -/
structure DeploySpecificInfo where
  contract_address : Nat
  constructor_calldata : List Nat
  transaction_hash : Nat

/-- TransactionSpecificInfo: tx_type DEPLOY or INVOKE_FUNCTION with the
matching payload (the only two kinds rpc_transaction dispatches on). -/
inductive TransactionSpecificInfo where
  | invoke : InvokeSpecificInfo → TransactionSpecificInfo
  | deploy : DeploySpecificInfo → TransactionSpecificInfo

/-- An L2 to L1 message of a gateway receipt; to_address is forwarded verbatim. -/
structure L2ToL1Message where
  to_address : String
  payload : List Nat

/-- An L1 to L2 consumed message of a gateway receipt. -/
structure L1ToL2Message where
  from_address : String
  payload : List Nat

/-- A gateway receipt event. -/
structure ReceiptEvent where
  from_address : Nat
  keys : List Nat
  data : List Nat

/-- Fields of a gateway TransactionReceipt read by rpc_transaction_receipt. -/
structure TransactionReceipt where
  transaction_hash : Nat
  status : Option TransactionStatus
  actual_fee : Option Nat
  l2_to_l1_messages : List L2ToL1Message
  l1_to_l2_consumed_message : Option L1ToL2Message
  events : List ReceiptEvent

/-- Result of transactions.get_transaction: a status and the transaction body. -/
structure TransactionInfo where
  status : TransactionStatus
  transaction : TransactionSpecificInfo

/-- Fields of a gateway StarknetBlock read by rpc_block. block_number is
Optional in the gateway objects, hence Option Int. -/
structure StarknetBlock where
  block_hash : Nat
  parent_block_hash : Nat
  block_number : Option Int
  status : BlockStatus
  timestamp : Int
  state_root : List Nat
  transactions : List TransactionSpecificInfo

/-- Outcome of starknet_wrapper.call for the call handler: a value, a
StarknetDevnetException, or a StarkException with a message. -/
inductive CallOutcome where
  | ok : PyVal → CallOutcome
  | devnetError : String → CallOutcome
  | starkError : String → CallOutcome

/-- The external chain-state collaborator (state.starknet_wrapper and its
sub-objects), as a record of lookup functions. A None result models the
StarknetDevnetException (not found) path of the corresponding accessor. -/
structure DevnetState where
  blocksByHash : String → Option StarknetBlock
  blocksByNumber : Int → Option StarknetBlock
  transactionInfos : String → Option TransactionInfo
  receipts : String → Option TransactionReceipt
  deployedContracts : Nat → Bool
  storageEntries : Nat → Nat → String
  callContract : Nat → Nat → List Nat → CallOutcome
  sequencer_address : Nat

/-- Failure of a handler: an RpcError raised on purpose (code, message), or
any other Python exception escaping the handler (named by its type). -/
inductive RpcFailure where
  | rpcError : Int → String → RpcFailure
  | pyError : String → RpcFailure
deriving DecidableEq

/-! ## Domain Translator (rpc.py lines 561-714) -/

/-- Embedding of rpc_invoke_transaction (rpc.py lines 572-583). -/
def rpc_invoke_transaction (transaction : InvokeSpecificInfo) : PyDict :=
  [("contract_address", PyVal.str (rpc_felt transaction.contract_address)),
   ("entry_point_selector", PyVal.str (rpc_felt transaction.entry_point_selector)),
   ("calldata", PyVal.list (transaction.calldata.map (fun data => PyVal.str (rpc_felt data)))),
   ("max_fee", PyVal.str (rpc_felt transaction.max_fee)),
   ("txn_hash", PyVal.str (rpc_felt transaction.transaction_hash))]

/-- Embedding of rpc_deploy_transaction (rpc.py lines 586-604): no entry point
selector, constructor calldata (None when empty), max_fee hard-coded to felt 0. -/
def rpc_deploy_transaction (transaction : DeploySpecificInfo) : PyDict :=
  [("contract_address", PyVal.str (rpc_felt transaction.contract_address)),
   ("entry_point_selector", PyVal.none),
   ("calldata",
     if transaction.constructor_calldata = [] then PyVal.none
     else PyVal.list (transaction.constructor_calldata.map (fun data => PyVal.str (rpc_felt data)))),
   ("max_fee", PyVal.str (rpc_felt 0)),
   ("txn_hash", PyVal.str (rpc_felt transaction.transaction_hash))]

/-- Embedding of rpc_transaction: dispatch on tx_type. -/
def rpc_transaction (transaction : TransactionSpecificInfo) : PyDict :=
  match transaction with
  | .deploy t => rpc_deploy_transaction t
  | .invoke t => rpc_invoke_transaction t

/-- Embedding of rpc_transaction_receipt (rpc.py lines 656-714). Python
`txr.actual_fee or 0` evaluates to 0 both for None and for 0. -/
def rpc_transaction_receipt (txr : TransactionReceipt) : PyDict :=
  [("txn_hash", PyVal.str (rpc_felt txr.transaction_hash)),
   ("status", PyVal.str
     (match txr.status with
      | Option.none => "UNKNOWN"
      | some TransactionStatus.NOT_RECEIVED => "UNKNOWN"
      | some TransactionStatus.ACCEPTED_ON_L2 => "ACCEPTED_ON_L2"
      | some TransactionStatus.ACCEPTED_ON_L1 => "ACCEPTED_ON_L1"
      | some TransactionStatus.RECEIVED => "RECEIVED"
      | some TransactionStatus.PENDING => "PENDING"
      | some TransactionStatus.REJECTED => "REJECTED")),
   ("statusData", PyVal.str ""),
   ("messages_sent", PyVal.list (txr.l2_to_l1_messages.map (fun message =>
      PyVal.dict [("to_address", PyVal.str message.to_address),
                  ("payload", PyVal.list (message.payload.map (fun p => PyVal.str (rpc_felt p))))]))),
   ("l1_origin_message",
     match txr.l1_to_l2_consumed_message with
     | Option.none => PyVal.none
     | some msg => PyVal.dict
        [("from_address", PyVal.str msg.from_address),
         ("payload", PyVal.list (msg.payload.map (fun p => PyVal.str (rpc_felt p))))]),
   ("events", PyVal.list (txr.events.map (fun event =>
      PyVal.dict [("from_address", PyVal.str (rpc_felt event.from_address)),
                  ("keys", PyVal.list (event.keys.map (fun e => PyVal.str (rpc_felt e)))),
                  ("data", PyVal.list (event.data.map (fun d => PyVal.str (rpc_felt d))))]))),
   ("actual_fee", PyVal.str (rpc_felt (txr.actual_fee.getD 0)))]

/-! ## Handlers (rpc.py lines 53-270) -/

/-- Embedding of the get_transaction_receipt handler (rpc.py lines 154-166):
not found gives RpcError 25, a NOT_RECEIVED status gives RpcError 25,
otherwise the translated receipt DTO. -/
def get_transaction_receipt (s : DevnetState) (transaction_hash : String) :
    Except RpcFailure PyDict :=
  match s.receipts transaction_hash with
  | Option.none => .error (.rpcError 25 "Invalid transaction hash")
  | some result =>
    if result.status = some TransactionStatus.NOT_RECEIVED then
      .error (.rpcError 25 "Invalid transaction hash")
    else .ok (rpc_transaction_receipt result)

/-- Embedding of the get_transaction_by_hash handler (rpc.py lines 107-119). -/
def get_transaction_by_hash (s : DevnetState) (transaction_hash : String) :
    Except RpcFailure PyDict :=
  match s.transactionInfos transaction_hash with
  | Option.none => .error (.rpcError 25 "Invalid transaction hash")
  | some result =>
    if result.status = TransactionStatus.NOT_RECEIVED then
      .error (.rpcError 25 "Invalid transaction hash")
    else .ok (rpc_transaction result.transaction)

/-- The DTO dict rpc_block builds (a TypedDict in the source). -/
structure RpcBlock where
  block_hash : String
  parent_hash : String
  block_number : Int
  status : String
  sequencer : String
  new_root : String
  old_root : String
  accepted_time : Int
  transactions : List PyVal

/-- The new_root closure of rpc_block: rpc_root(block.state_root.hex()). -/
def block_new_root (block : StarknetBlock) : String :=
  rpc_root (bytesHex block.state_root)

/-- The old_root closure of rpc_block (rpc.py lines 429-433): the state root
of the block numbered block_number - 1 when that is non-negative, else 32 zero
bytes; a missing predecessor raises a StarknetDevnetException that rpc_block
does not catch, and a None block_number raises a TypeError on subtraction. -/
def block_old_root (s : DevnetState) (block_number : Option Int) :
    Except RpcFailure String :=
  match block_number with
  | Option.none => .error (.pyError "TypeError")
  | some n =>
    if 0 ≤ n - 1 then
      match s.blocksByNumber (n - 1) with
      | some prev => .ok (rpc_root (bytesHex prev.state_root))
      | Option.none => .error (.pyError "StarknetDevnetException")
    else .ok (rpc_root (bytesHex (List.replicate 32 0)))

/-- The full_transactions closure of rpc_block (rpc.py lines 416-423): for each
transaction DTO in block order, fetch its receipt through the
get_transaction_receipt handler and build the dict literal spreading the
receipt first and the transaction second. -/
def full_transactions (s : DevnetState) (txs : List TransactionSpecificInfo) :
    Except RpcFailure (List PyDict) :=
  match txs with
  | [] => .ok []
  | tx :: rest =>
    match get_transaction_receipt s ((pyDictGet? (rpc_transaction tx) "txn_hash").getD PyVal.none).asStr with
    | .error e => .error e
    | .ok receipt =>
      match full_transactions s rest with
      | .error e => .error e
      | .ok tail => .ok (pyDictMerge receipt (rpc_transaction tx) :: tail)

/-- The scope dispatch of rpc_block (rpc.py lines 437-442): TXN_HASH gives the
txn_hash field of each transaction DTO, FULL_TXNS the DTOs, and
FULL_TXN_AND_RECEIPTS the merged DTOs; any other scope raises a KeyError on
the mapping dict. -/
def block_transactions (s : DevnetState) (block : StarknetBlock)
    (requested_scope : String) : Except RpcFailure (List PyVal) :=
  if requested_scope = "TXN_HASH" then
    .ok (block.transactions.map (fun tx => (pyDictGet? (rpc_transaction tx) "txn_hash").getD PyVal.none))
  else if requested_scope = "FULL_TXNS" then
    .ok (block.transactions.map (fun tx => PyVal.dict (rpc_transaction tx)))
  else if requested_scope = "FULL_TXN_AND_RECEIPTS" then
    match full_transactions s block.transactions with
    | .error e => .error e
    | .ok l => .ok (l.map PyVal.dict)
  else .error (.pyError "KeyError")

/-- Embedding of rpc_block (rpc.py lines 405-458). The transaction list is
evaluated first; the dict literal then computes new_root and old_root.
Python `rpc_felt(parent) or "0x0"` keeps the felt unless it is empty. -/
def rpc_block (s : DevnetState) (block : StarknetBlock) (requested_scope : String) :
    Except RpcFailure RpcBlock :=
  match block_transactions s block requested_scope with
  | .error e => .error e
  | .ok txs =>
    match block_old_root s block.block_number with
    | .error e => .error e
    | .ok oldRoot =>
      .ok { block_hash := rpc_felt block.block_hash
          , parent_hash :=
              if rpc_felt block.parent_block_hash = "" then "0x0"
              else rpc_felt block.parent_block_hash
          , block_number := block.block_number.getD 0
          , status := block.status.name
          , sequencer := pyHexStr s.sequencer_address
          , new_root := block_new_root block
          , old_root := oldRoot
          , accepted_time := block.timestamp
          , transactions := txs }

/-- Embedding of the get_block_by_hash handler (rpc.py lines 53-62). -/
def get_block_by_hash (s : DevnetState) (block_hash : String)
    (requested_scope : String) : Except RpcFailure RpcBlock :=
  match s.blocksByHash block_hash with
  | Option.none => .error (.rpcError 24 "Invalid block hash")
  | some result => rpc_block s result requested_scope

/-- Embedding of the get_block_by_number handler (rpc.py lines 65-74). -/
def get_block_by_number (s : DevnetState) (block_number : Int)
    (requested_scope : String) : Except RpcFailure RpcBlock :=
  match s.blocksByNumber block_number with
  | Option.none => .error (.rpcError 26 "Invalid block number")
  | some result => rpc_block s result requested_scope

/-- Embedding of the get_storage_at handler (rpc.py lines 89-104): any block
hash other than latest is rejected with the custom code -1 before anything
else; then the deployment check, then the storage read. -/
def get_storage_at (s : DevnetState) (contract_address : String) (key : String)
    (block_hash : String) : Except RpcFailure String :=
  if block_hash ≠ "latest" then
    .error (.rpcError (-1) "Calls with block_hash != \x27latest\x27 are not supported currently.")
  else
    match pyIntHex contract_address with
    | Option.none => .error (.pyError "ValueError")
    | some address =>
      if ¬ s.deployedContracts address then
        .error (.rpcError 20 "Contract not found")
      else
        match pyIntHex key with
        | Option.none => .error (.pyError "ValueError")
        | some k => .ok (s.storageEntries address k)

/-- Python `sub in msg` for the two StarkException message probes of call. -/
def pyContains (msg sub : String) : Bool :=
  decide (sub.data <:+: msg.data)

/-- Embedding of the call handler (rpc.py lines 240-270): the block-hash guard
first, then the deployment check, then make_invoke_function (whose int()
parses can raise) and the wrapped call, whose failures map to -1 / 21 / 22. -/
def call (s : DevnetState) (contract_address : String) (entry_point_selector : String)
    (calldata : List String) (block_hash : String) : Except RpcFailure PyVal :=
  if block_hash ≠ "latest" then
    .error (.rpcError (-1) "Calls with block_hash != \x27latest\x27 are not supported currently.")
  else
    match pyIntHex contract_address with
    | Option.none => .error (.pyError "ValueError")
    | some address =>
      if ¬ s.deployedContracts address then
        .error (.rpcError 20 "Contract not found")
      else
        match pyIntHex entry_point_selector, calldata.mapM pyIntHex with
        | Option.none, _ => .error (.pyError "ValueError")
        | _, Option.none => .error (.pyError "ValueError")
        | some selector, some data =>
          match s.callContract address selector data with
          | .ok value => .ok value
          | .devnetError msg => .error (.rpcError (-1) msg)
          | .starkError msg =>
            if pyContains msg ("Entry point " ++ entry_point_selector ++ " not found") then
              .error (.rpcError 21 "Invalid message selector")
            else if pyContains msg "While handling calldata" then
              .error (.rpcError 22 "Invalid call data")
            else .error (.rpcError (-1) msg)

/-! ## Dispatcher: parse_body (rpc.py lines 757-793) -/

/-- A JSON-RPC request body with the three fields parse_body reads. -/
structure RequestBody where
  method : String
  params : PyVal
  id : Int

/-- Keys of the methods dict of parse_body, in source order. The dict maps
each name to a distinct handler function, so the resolved handler is
identified by its key. -/
def methods_table : List String :=
  ["getBlockByNumber", "getBlockByHash", "getStateUpdateByHash", "getStorageAt",
   "getTransactionByHash", "getTransactionByBlockHashAndIndex",
   "getTransactionByBlockNumberAndIndex", "getTransactionReceipt", "getCode",
   "getBlockTransactionCountByHash", "getBlockTransactionCountByNumber", "call",
   "blockNumber", "chainId", "pendingTransactions", "protocolVersion", "syncing",
   "getEvents", "getClass", "getClassHashAt", "getClassAt", "estimateFee"]

/-- Embedding of parse_body: method_name = body["method"].lstrip("starknet_")
(a character-class strip), then table lookup; an absent name raises
RpcError(-1, "Method not found"). The ok value carries the resolved handler
key together with the params and id the caller receives. -/
def parse_body (body : RequestBody) : Except RpcFailure (String × PyVal × Int) :=
  let method_name := String.mk (pyLstrip body.method.data "starknet_".data)
  let args := body.params
  let message_id := body.id
  if methods_table.contains method_name then .ok (method_name, args, message_id)
  else .error (.rpcError (-1) "Method not found")

/-! ## Schema Registry (rpc/schema.py) -/

/-- JSON values of the specification documents (schema fragments). -/
inductive JSchema where
  | obj : List (String × JSchema) → JSchema
  | arr : List JSchema → JSchema
  | str : String → JSchema
  | num : Int → JSchema
  | bool : Bool → JSchema

/-- A schema fragment: a JSON object, as a Python dict. -/
abbrev SchemaDict := List (String × JSchema)

/-- Embedding of the condition `any(i for i in ("allOf", "anyOf", "oneOf"))`
of _load_schemas: Python any() over that literal tuple tests each string for
truthiness (non-emptiness) and never consults the schema at hand. -/
def compositionTupleCheck : Bool :=
  ["allOf", "anyOf", "oneOf"].any (fun i => i != "")

/-- The body of the per-fragment loop of _load_schemas (schema.py lines
32-43): back-fill required from the property names when absent (without
recursing into nested fragments), then set unevaluatedProperties under the
tuple-truthiness condition. -/
def _load_schemas_normalize (schema : SchemaDict) : SchemaDict :=
  let schema :=
    if !pyDictHasKey schema "required" && pyDictHasKey schema "properties" then
      pyDictSet schema "required"
        (JSchema.arr
          ((match pyDictGet? schema "properties" with
            | some (JSchema.obj fields) => fields.map Prod.fst
            | _ => []).map JSchema.str))
    else schema
  if compositionTupleCheck then
    pyDictSet schema "unevaluatedProperties" (JSchema.bool false)
  else schema

/-- Embedding of the loop of _load_schemas over the shared component library:
every fragment is normalized in place. -/
def _load_schemas (schemas : List (String × SchemaDict)) : List (String × SchemaDict) :=
  schemas.map (fun p => (p.1, _load_schemas_normalize p.2))

/-! ## Request binder (schema.py lines 129-166) -/

/-- Python `v == "some string"` on a JSON value: true exactly for that string. -/
def pyEqStr (v : PyVal) (s : String) : Bool :=
  match v with
  | .str t => t == s
  | _ => false

/-- How a call to assert_valid_rpc_request returns: normally, with a
ValueError, with a jsonschema ValidationError, or with another exception
(KeyError on the schemas dict). -/
inductive BindOutcome where
  | ok
  | valueError : String → BindOutcome
  | validationError : String → BindOutcome
  | pyError : String → BindOutcome
deriving DecidableEq

/-- The positional loop of assert_valid_rpc_request:
zip_longest(schemas.keys(), args, fillvalue="missing") followed by the
arg == "missing" test and validate(arg, schemas[name]). The validate oracle
is abstract (jsonschema is an external library and the parameter schemas live
in the specification documents); it is keyed by parameter name. -/
def validate_args_loop (validate : String → PyVal → Bool) :
    List String → List PyVal → BindOutcome
  | [], [] => .ok
  | [], arg :: _ =>
    if pyEqStr arg "missing" then .validationError "Missing arg for missing."
    else .pyError "KeyError"
  | name :: _, [] => .validationError ("Missing arg for " ++ name ++ ".")
  | name :: names, arg :: args =>
    if pyEqStr arg "missing" then .validationError ("Missing arg for " ++ name ++ ".")
    else if validate name arg then validate_args_loop validate names args
    else .validationError "params schema"

/-- The keyword loop of assert_valid_rpc_request: iterate the schema names in
order, require each in kwargs, validate each value. -/
def validate_kwargs_loop (validate : String → PyVal → Bool)
    (kwargs : List (String × PyVal)) : List String → BindOutcome
  | [] => .ok
  | name :: names =>
    match pyDictGet? kwargs name with
    | Option.none => .validationError ("Missing kwarg for " ++ name ++ ".")
    | some value =>
      if validate name value then validate_kwargs_loop validate kwargs names
      else .validationError "params schema"

/-- Embedding of assert_valid_rpc_request (schema.py lines 129-166) for one
method whose ordered parameter names are paramNames. The final branch
reproduces the walrus quirk: length is bound to the boolean len(schemas) != 0,
so the message renders it as True. -/
def assert_valid_rpc_request (validate : String → PyVal → Bool)
    (paramNames : List String) (args : List PyVal)
    (kwargs : List (String × PyVal)) : BindOutcome :=
  if !args.isEmpty && !kwargs.isEmpty then
    .valueError "Cannot validate schemas with both args and kwargs provided."
  else if !args.isEmpty then
    if paramNames.length < args.length then .validationError "Too many arguments provided."
    else validate_args_loop validate paramNames args
  else if !kwargs.isEmpty then
    if paramNames.length < kwargs.length then .validationError "Too many arguments provided."
    else validate_kwargs_loop validate kwargs paramNames
  else if paramNames.length ≠ 0 then
    .validationError "0 arguments provided to function expecting True arguments."
  else .ok

/-! ## Concrete states used by witnesses -/

/-- A chain state with nothing in it. -/
def emptyState : DevnetState :=
  { blocksByHash := fun _ => Option.none
  , blocksByNumber := fun _ => Option.none
  , transactionInfos := fun _ => Option.none
  , receipts := fun _ => Option.none
  , deployedContracts := fun _ => false
  , storageEntries := fun _ _ => "0x0"
  , callContract := fun _ _ _ => CallOutcome.devnetError "error"
  , sequencer_address := 0 }

/-! ## Claim C6 -/

/-- C6: rpc_felt(0) is exactly the string 0x0 (the marker plus the digit 0),
and rpc_felt is injective over the non-negative integers. -/
theorem c6_rpc_felt_zero_and_injective :
    rpc_felt 0 = "0x0" ∧ ∀ a b : Nat, a ≠ b → rpc_felt a ≠ rpc_felt b := by
  refine ⟨by decide, ?_⟩
  intro a b hab h
  exact hab (rpc_felt_injective h)

/-- Witness for C6 at the concrete pair 7 and 11. -/
theorem c6_witness : (7 : Nat) ≠ 11 ∧ rpc_felt 7 ≠ rpc_felt 11 :=
  ⟨by decide, c6_rpc_felt_zero_and_injective.2 7 11 (by decide)⟩

/-! ## Claim C9 -/

/-- C9 counterexample: on the root string 0abc (hex with its leading parity
nibble) rpc_root returns 0x0abc, while the claim - the two-character marker 0x
followed by the string with its first character removed - demands 0xabc. -/
theorem c9_counterexample :
    ¬ rpc_root "0abc" = "0x" ++ String.mk ("0abc".data.drop 1) := by decide

/-- C9 amended: for every non-empty root string, rpc_root is the
three-character prefix 0x0 followed by the string with its first character
removed; equivalently the marker 0x followed by an inserted 0 and the
remainder. -/
theorem c9_rpc_root_amended (h : String) (c : Char) (cs : List Char)
    (hcons : h.data = c :: cs) :
    rpc_root h = "0x0" ++ String.mk cs ∧ rpc_root h = "0x" ++ String.mk ('0' :: cs) := by
  constructor <;>
    · simp only [rpc_root, hcons, List.drop_succ_cons, List.drop_zero]
      rfl

/-- Witness for C9 at the root 0abc. -/
theorem c9_witness :
    rpc_root "0abc" = "0x0" ++ String.mk ['a', 'b', 'c'] ∧
    rpc_root "0abc" = "0x" ++ String.mk ['0', 'a', 'b', 'c'] :=
  c9_rpc_root_amended "0abc" '0' ['a', 'b', 'c'] (by decide)

/-! ## Claim C3 -/

/-- C3: a block-by-hash lookup that misses yields RpcError 24, a
block-by-number lookup that misses yields RpcError 26, and a transaction
lookup that misses - or finds a NOT_RECEIVED transaction - yields RpcError
25. -/
theorem c3_not_found_codes (s : DevnetState) (h : String) (n : Int)
    (scope : String) (th : String) :
    (s.blocksByHash h = Option.none →
      get_block_by_hash s h scope = .error (.rpcError 24 "Invalid block hash")) ∧
    (s.blocksByNumber n = Option.none →
      get_block_by_number s n scope = .error (.rpcError 26 "Invalid block number")) ∧
    ((s.transactionInfos th = Option.none ∨
        ∃ info, s.transactionInfos th = some info ∧
          info.status = TransactionStatus.NOT_RECEIVED) →
      get_transaction_by_hash s th = .error (.rpcError 25 "Invalid transaction hash")) := by
  refine ⟨?_, ?_, ?_⟩
  · intro hmiss
    unfold get_block_by_hash
    rw [hmiss]
  · intro hmiss
    unfold get_block_by_number
    rw [hmiss]
  · intro hmiss
    unfold get_transaction_by_hash
    rcases hmiss with hmiss | ⟨info, hinfo, hstatus⟩
    · rw [hmiss]
    · rw [hinfo]
      simp [hstatus]

/-- Witness for C3 against the empty chain state. -/
theorem c3_witness :
    get_block_by_hash emptyState "0x0" "TXN_HASH" = .error (.rpcError 24 "Invalid block hash") ∧
    get_block_by_number emptyState 1234 "TXN_HASH" = .error (.rpcError 26 "Invalid block number") ∧
    get_transaction_by_hash emptyState "0x0" = .error (.rpcError 25 "Invalid transaction hash") :=
  ⟨(c3_not_found_codes emptyState "0x0" 1234 "TXN_HASH" "0x0").1 rfl,
   (c3_not_found_codes emptyState "0x0" 1234 "TXN_HASH" "0x0").2.1 rfl,
   (c3_not_found_codes emptyState "0x0" 1234 "TXN_HASH" "0x0").2.2 (Or.inl rfl)⟩

/-! ## Claim C10 -/

/-- C10: get_storage_at and call reject any block_hash other than latest with
RpcError -1 for every chain state (so before any deployment check or state
read), and either handler returns the code 20 Contract-not-found error only
when block_hash is latest and the addressed contract is not deployed. -/
theorem c10_latest_guard (s : DevnetState)
    (contract_address key entry_point_selector block_hash : String)
    (calldata : List String) :
    (block_hash ≠ "latest" →
      get_storage_at s contract_address key block_hash =
        .error (.rpcError (-1) "Calls with block_hash != \x27latest\x27 are not supported currently.")) ∧
    (block_hash ≠ "latest" →
      call s contract_address entry_point_selector calldata block_hash =
        .error (.rpcError (-1) "Calls with block_hash != \x27latest\x27 are not supported currently.")) ∧
    (get_storage_at s contract_address key block_hash =
        .error (.rpcError 20 "Contract not found") →
      block_hash = "latest" ∧
        ∃ a, pyIntHex contract_address = some a ∧ s.deployedContracts a = false) ∧
    (call s contract_address entry_point_selector calldata block_hash =
        .error (.rpcError 20 "Contract not found") →
      block_hash = "latest" ∧
        ∃ a, pyIntHex contract_address = some a ∧ s.deployedContracts a = false) := by
  refine ⟨?_, ?_, ?_, ?_⟩
  · intro hne
    unfold get_storage_at
    rw [if_pos hne]
  · intro hne
    unfold call
    rw [if_pos hne]
  · intro h20
    unfold get_storage_at at h20
    split at h20
    next hne => simp at h20
    next hne =>
      refine ⟨not_not.mp hne, ?_⟩
      split at h20
      next hca => simp at h20
      next a hca =>
        split at h20
        next hdep => exact ⟨a, hca, by simpa using hdep⟩
        next hdep =>
          split at h20
          next hk => simp at h20
          next kv hk => simp at h20
  · intro h20
    unfold call at h20
    split at h20
    next hne => simp at h20
    next hne =>
      refine ⟨not_not.mp hne, ?_⟩
      split at h20
      next hca => simp at h20
      next a hca =>
        split at h20
        next hdep => exact ⟨a, hca, by simpa using hdep⟩
        next hdep =>
          split at h20
          next heps hcd => simp at h20
          next heps hcd => simp at h20
          next sel data heps hcd =>
            split at h20
            next v hout => simp at h20
            next msg hout => simp at h20
            next msg hout =>
              split at h20
              next hprobe1 => simp at h20
              next hprobe1 =>
                split at h20
                next hprobe2 => simp at h20
                next hprobe2 => simp at h20

/-- Witness for C10: a non-latest block hash on the empty state, and a code 20
outcome on the empty state with block hash latest. -/
theorem c10_witness :
    get_storage_at emptyState "0x1" "0x2" "0x0" =
      .error (.rpcError (-1) "Calls with block_hash != \x27latest\x27 are not supported currently.") ∧
    call emptyState "0x1" "0x2" [] "0x0" =
      .error (.rpcError (-1) "Calls with block_hash != \x27latest\x27 are not supported currently.") ∧
    ("latest" = "latest" ∧
      ∃ a, pyIntHex "0x1" = some a ∧ emptyState.deployedContracts a = false) :=
  ⟨(c10_latest_guard emptyState "0x1" "0x2" "0x2" "0x0" []).1 (by decide),
   (c10_latest_guard emptyState "0x1" "0x2" "0x2" "0x0" []).2.1 (by decide),
   (c10_latest_guard emptyState "0x1" "0x2" "0x2" "latest" []).2.2.1 rfl⟩

/-! ## Claim C2 -/

theorem dropWhile_append_of_forall {α : Type} (p : α → Bool) (l1 l2 : List α)
    (h : ∀ c ∈ l1, p c = true) :
    (l1 ++ l2).dropWhile p = l2.dropWhile p := by
  induction l1 with
  | nil => rfl
  | cons c cs ih =>
    rw [List.cons_append, List.dropWhile_cons_of_pos (h c (by simp))]
    exact ih (fun d hd => h d (by simp [hd]))

/-- C2 counterexample: syncing is a registered method, yet both syncing and
starknet_syncing are rejected with code -1, because the lstrip removes every
leading character drawn from the class starknet_ and turns them into the
unregistered name yncing. -/
theorem c2_counterexample :
    "syncing" ∈ methods_table ∧
    parse_body ⟨"starknet_syncing", PyVal.list [], 0⟩ =
      .error (.rpcError (-1) "Method not found") ∧
    parse_body ⟨"syncing", PyVal.list [], 0⟩ =
      .error (.rpcError (-1) "Method not found") :=
  ⟨by decide, rfl, rfl⟩

/-- C2 amended: parse_body strips every leading character of the method field
drawn from the class starknet_. For a registered method name that this strip
leaves intact, both the bare name and the starknet_-prefixed name resolve to
that method, with the params and id passed through; any body whose stripped
method name is unregistered raises RpcError -1 Method not found, regardless
of the other request content. -/
theorem c2_parse_body_amended :
    (∀ (body : RequestBody) (m : String),
       m ∈ methods_table →
       m.data.dropWhile (fun c => ("starknet_".data).contains c) = m.data →
       (body.method = "starknet_" ++ m ∨ body.method = m) →
       parse_body body = .ok (m, body.params, body.id)) ∧
    (∀ body : RequestBody,
       String.mk (pyLstrip body.method.data ("starknet_".data)) ∉ methods_table →
       parse_body body = .error (.rpcError (-1) "Method not found")) := by
  constructor
  · intro body m hm hintact hmethod
    have hstrip : pyLstrip body.method.data ("starknet_".data) = m.data := by
      rcases hmethod with hmethod | hmethod
      · rw [hmethod, String.data_append]
        unfold pyLstrip
        rw [dropWhile_append_of_forall _ _ _ (by decide)]
        exact hintact
      · rw [hmethod]
        exact hintact
    unfold parse_body
    rw [hstrip]
    rw [if_pos (List.elem_iff.mpr hm)]
  · intro body hnot
    unfold parse_body
    rw [if_neg (by simpa using hnot)]

/-- Witness for C2: getBlockByNumber resolves in both spellings, and an
unregistered method name is rejected. -/
theorem c2_witness :
    parse_body ⟨"starknet_getBlockByNumber", PyVal.list [], 7⟩ =
      .ok ("getBlockByNumber", PyVal.list [], 7) ∧
    parse_body ⟨"getBlockByNumber", PyVal.list [], 7⟩ =
      .ok ("getBlockByNumber", PyVal.list [], 7) ∧
    parse_body ⟨"starknet_foo", PyVal.none, 0⟩ =
      .error (.rpcError (-1) "Method not found") :=
  ⟨c2_parse_body_amended.1 ⟨"starknet_getBlockByNumber", PyVal.list [], 7⟩
      "getBlockByNumber" (by decide) (by decide) (Or.inl rfl),
   c2_parse_body_amended.1 ⟨"getBlockByNumber", PyVal.list [], 7⟩
      "getBlockByNumber" (by decide) (by decide) (Or.inr rfl),
   c2_parse_body_amended.2 ⟨"starknet_foo", PyVal.none, 0⟩ (by decide)⟩

/-! ## Claim C8 -/

/-- C8: for every gateway receipt, the translated receipt DTO has exactly the
keys txn_hash, status, statusData, messages_sent, l1_origin_message, events,
actual_fee in that order; statusData is always the empty string; status comes
from the fixed table with both NOT_RECEIVED and an unset status rendered
UNKNOWN; and l1_origin_message is null exactly when the receipt has no
L1-to-L2 consumed message. -/
theorem c8_receipt_shape (txr : TransactionReceipt) :
    (rpc_transaction_receipt txr).map Prod.fst =
      ["txn_hash", "status", "statusData", "messages_sent",
       "l1_origin_message", "events", "actual_fee"] ∧
    pyDictGet? (rpc_transaction_receipt txr) "statusData" = some (PyVal.str "") ∧
    pyDictGet? (rpc_transaction_receipt txr) "status" = some (PyVal.str
      (match txr.status with
       | Option.none => "UNKNOWN"
       | some TransactionStatus.NOT_RECEIVED => "UNKNOWN"
       | some TransactionStatus.ACCEPTED_ON_L2 => "ACCEPTED_ON_L2"
       | some TransactionStatus.ACCEPTED_ON_L1 => "ACCEPTED_ON_L1"
       | some TransactionStatus.RECEIVED => "RECEIVED"
       | some TransactionStatus.PENDING => "PENDING"
       | some TransactionStatus.REJECTED => "REJECTED")) ∧
    (pyDictGet? (rpc_transaction_receipt txr) "l1_origin_message" = some PyVal.none ↔
      txr.l1_to_l2_consumed_message = Option.none) := by
  refine ⟨rfl, rfl, rfl, ?_⟩
  cases h : txr.l1_to_l2_consumed_message with
  | none => simp [rpc_transaction_receipt, pyDictGet?, h]
  | some msg => simp [rpc_transaction_receipt, pyDictGet?, h]

/-! ## Claim C5 -/

theorem pyDictHasKey_eq_false_iff {α : Type} (d : List (String × α)) (k : String) :
    pyDictHasKey d k = false ↔ pyDictGet? d k = Option.none := by
  cases h : pyDictGet? d k with
  | none =>
    simp only [h, iff_true]
    rw [← Bool.not_eq_true, pyDictHasKey_iff_get?]
    simp [h]
  | some v =>
    have hk : pyDictHasKey d k = true := (pyDictHasKey_iff_get? d k).mpr ⟨v, h⟩
    simp [hk]

theorem compositionTupleCheck_true : compositionTupleCheck = true := by decide

/-- C5: after the _load_schemas loop, every shared fragment that has a
properties map but no required list carries a required list of exactly its
property names (the properties entry itself, with any nested fragments, is
untouched), and every fragment - in particular each one using allOf, anyOf or
oneOf composition and each one using none of them - carries
unevaluatedProperties set to false, because the truthiness test over the
literal keyword tuple is always true. -/
theorem c5_load_schemas_normalization
    (schemas : List (String × SchemaDict)) (n : String) (f : SchemaDict)
    (hmem : (n, f) ∈ schemas) :
    ((n, _load_schemas_normalize f) ∈ _load_schemas schemas) ∧
    (∀ fields, pyDictGet? f "required" = Option.none →
       pyDictGet? f "properties" = some (JSchema.obj fields) →
       pyDictGet? (_load_schemas_normalize f) "required" =
         some (JSchema.arr ((fields.map Prod.fst).map JSchema.str))) ∧
    (pyDictGet? (_load_schemas_normalize f) "properties" = pyDictGet? f "properties") ∧
    (pyDictGet? (_load_schemas_normalize f) "unevaluatedProperties" =
      some (JSchema.bool false)) ∧
    ((pyDictHasKey f "allOf" || pyDictHasKey f "anyOf" || pyDictHasKey f "oneOf") = false →
       pyDictGet? (_load_schemas_normalize f) "unevaluatedProperties" =
         some (JSchema.bool false)) := by
  have hnorm : _load_schemas_normalize f =
      pyDictSet
        (if !pyDictHasKey f "required" && pyDictHasKey f "properties" then
          pyDictSet f "required"
            (JSchema.arr
              ((match pyDictGet? f "properties" with
                | some (JSchema.obj fields) => fields.map Prod.fst
                | _ => []).map JSchema.str))
        else f)
        "unevaluatedProperties" (JSchema.bool false) := by
    unfold _load_schemas_normalize
    exact if_pos compositionTupleCheck_true
  refine ⟨?_, ?_, ?_, ?_, ?_⟩
  · exact List.mem_map_of_mem (fun p => (p.1, _load_schemas_normalize p.2)) hmem
  · intro fields hreq hprops
    have hcond : (!pyDictHasKey f "required" && pyDictHasKey f "properties") = true := by
      rw [Bool.and_eq_true]
      constructor
      · rw [Bool.not_eq_true']
        exact (pyDictHasKey_eq_false_iff f "required").mpr hreq
      · exact (pyDictHasKey_iff_get? f "properties").mpr ⟨_, hprops⟩
    rw [hnorm, if_pos hcond,
      pyDictGet?_set_other _ _ _ _ (by decide), pyDictGet?_set_self, hprops]
  · rw [hnorm]
    rw [pyDictGet?_set_other _ _ _ _ (by decide)]
    by_cases hcond : (!pyDictHasKey f "required" && pyDictHasKey f "properties") = true
    · rw [if_pos hcond, pyDictGet?_set_other _ _ _ _ (by decide)]
    · rw [if_neg hcond]
  · rw [hnorm, pyDictGet?_set_self]
  · intro _
    rw [hnorm, pyDictGet?_set_self]

/-- A concrete fragment for the C5 witness: a properties map, no required list. -/
def fragW : SchemaDict :=
  [("properties", JSchema.obj [("a", JSchema.str "felt"), ("b", JSchema.str "felt")]),
   ("type", JSchema.str "object")]

/-- Witness for C5 on the one-fragment registry FOO. -/
theorem c5_witness :
    (("FOO", _load_schemas_normalize fragW) ∈ _load_schemas [("FOO", fragW)]) ∧
    pyDictGet? (_load_schemas_normalize fragW) "required" =
      some (JSchema.arr [JSchema.str "a", JSchema.str "b"]) ∧
    pyDictGet? (_load_schemas_normalize fragW) "properties" =
      some (JSchema.obj [("a", JSchema.str "felt"), ("b", JSchema.str "felt")]) ∧
    pyDictGet? (_load_schemas_normalize fragW) "unevaluatedProperties" =
      some (JSchema.bool false) := by
  have h := c5_load_schemas_normalization [("FOO", fragW)] "FOO" fragW
    (List.mem_singleton.mpr rfl)
  exact ⟨h.1, h.2.1 [("a", JSchema.str "felt"), ("b", JSchema.str "felt")] rfl rfl,
    (h.2.2.1).trans rfl, h.2.2.2.1⟩

/-! ## Claim C7 -/

/-- Inversion of a successful rpc_block: the scope dispatch and the old_root
computation both succeeded, and the DTO carries exactly their results plus
the new_root of the block itself. -/
theorem rpc_block_ok_fields (s : DevnetState) (b : StarknetBlock) (scope : String)
    (dto : RpcBlock) (hok : rpc_block s b scope = .ok dto) :
    ∃ txs oldRoot, block_transactions s b scope = .ok txs ∧
      block_old_root s b.block_number = .ok oldRoot ∧
      dto.old_root = oldRoot ∧ dto.new_root = block_new_root b ∧
      dto.transactions = txs := by
  unfold rpc_block at hok
  split at hok
  next => simp at hok
  next txs htxs =>
    split at hok
    next => simp at hok
    next oldr holdr =>
      injection hok with h
      refine ⟨txs, oldr, htxs, holdr, ?_, ?_, ?_⟩ <;> rw [← h]

/-- C7: in any successful block translation, old_root is the new_root that
rpc_block gives the predecessor block (looked up by number) when the block
number is at least 1, and is the encoding of the 32-zero-byte root when the
block number is 0. -/
theorem c7_old_root (s : DevnetState) (b prev : StarknetBlock)
    (scope scopePrev : String) (dto dtoPrev : RpcBlock) (n : Int)
    (hn : b.block_number = some n)
    (hok : rpc_block s b scope = .ok dto) :
    (1 ≤ n → s.blocksByNumber (n - 1) = some prev →
      rpc_block s prev scopePrev = .ok dtoPrev →
      dto.old_root = dtoPrev.new_root) ∧
    (n = 0 → dto.old_root = rpc_root (bytesHex (List.replicate 32 0))) := by
  obtain ⟨txs, oldr, htxs, holdr, hdor, hdnr, hdtx⟩ :=
    rpc_block_ok_fields s b scope dto hok
  unfold block_old_root at holdr
  split at holdr
  next hnone =>
    rw [hn] at hnone
    exact absurd hnone (by simp)
  next m hm =>
    have hmn : m = n := by
      rw [hn] at hm
      exact (Option.some.inj hm).symm
    subst hmn
    constructor
    · intro h1 hprev hokPrev
      obtain ⟨ptxs, poldr, phtxs, pholdr, phdor, phdnr, phdtx⟩ :=
        rpc_block_ok_fields s prev scopePrev dtoPrev hokPrev
      rw [if_pos (by omega)] at holdr
      rw [hprev] at holdr
      injection holdr with holdr
      rw [hdor, ← holdr, phdnr]
      rfl
    · intro h0
      subst h0
      rw [if_neg (by omega)] at holdr
      injection holdr with holdr
      rw [hdor, ← holdr]

/-- Blocks 0 and 1 of the witness chain. -/
def blockZero : StarknetBlock :=
  { block_hash := 1, parent_block_hash := 0, block_number := some 0,
    status := BlockStatus.ACCEPTED_ON_L2, timestamp := 100,
    state_root := [7], transactions := [] }

def blockOne : StarknetBlock :=
  { block_hash := 2, parent_block_hash := 1, block_number := some 1,
    status := BlockStatus.ACCEPTED_ON_L2, timestamp := 101,
    state_root := [9], transactions := [] }

/-- A two-block chain state for the C7 witness. -/
def chainState : DevnetState :=
  { emptyState with
    blocksByNumber := fun n =>
      if n = 0 then some blockZero else if n = 1 then some blockOne else Option.none
    blocksByHash := fun h =>
      if h = "0x01" then some blockZero else if h = "0x02" then some blockOne
      else Option.none }

/-- The DTOs rpc_block computes for the two witness blocks under TXN_HASH. -/
def dtoWZero : RpcBlock :=
  { block_hash := "0x01", parent_hash := "0x0", block_number := 0,
    status := "ACCEPTED_ON_L2", sequencer := "0x0",
    new_root := "0x07",
    old_root := rpc_root (bytesHex (List.replicate 32 0)),
    accepted_time := 100, transactions := [] }

def dtoWOne : RpcBlock :=
  { block_hash := "0x02", parent_hash := "0x01", block_number := 1,
    status := "ACCEPTED_ON_L2", sequencer := "0x0",
    new_root := "0x09", old_root := "0x07",
    accepted_time := 101, transactions := [] }

/-- Witness for C7 on the two-block chain. -/
theorem c7_witness :
    rpc_block chainState blockOne "TXN_HASH" = .ok dtoWOne ∧
    rpc_block chainState blockZero "TXN_HASH" = .ok dtoWZero ∧
    dtoWOne.old_root = dtoWZero.new_root ∧
    dtoWZero.old_root = rpc_root (bytesHex (List.replicate 32 0)) :=
  ⟨rfl, rfl,
   (c7_old_root chainState blockOne blockZero "TXN_HASH" "TXN_HASH" dtoWOne dtoWZero 1
      rfl rfl).1 (by norm_num) rfl rfl,
   (c7_old_root chainState blockZero blockZero "TXN_HASH" "TXN_HASH" dtoWZero dtoWZero 0
      rfl rfl).2 rfl⟩

/-! ## Claim C4 -/

theorem validate_args_loop_ok_iff (validate : String → PyVal → Bool) :
    ∀ (names : List String) (vals : List PyVal),
      names.length = vals.length →
      (∀ v ∈ vals, pyEqStr v "missing" = false) →
      (validate_args_loop validate names vals = BindOutcome.ok ↔
        ∀ p ∈ names.zip vals, validate p.1 p.2 = true) := by
  intro names
  induction names with
  | nil =>
    intro vals hlen _
    have : vals = [] := List.length_eq_zero.mp hlen.symm
    subst this
    simp [validate_args_loop]
  | cons name ns ih =>
    intro vals hlen hnomiss
    cases vals with
    | nil => simp at hlen
    | cons v vs =>
      have hmiss : pyEqStr v "missing" = false := hnomiss v (by simp)
      simp only [validate_args_loop, hmiss, Bool.false_eq_true, if_false]
      cases hv : validate name v with
      | true =>
        rw [if_pos rfl]
        rw [ih vs (by simpa using hlen) (fun w hw => hnomiss w (by simp [hw]))]
        constructor
        · intro hall p hp
          rcases List.mem_cons.mp hp with hp | hp
          · rw [hp]; exact hv
          · exact hall p hp
        · intro hall p hp
          exact hall p (by simp [hp])
      | false =>
        rw [if_neg (by simp)]
        constructor
        · intro hcon
          exact absurd hcon (by simp)
        · intro hall
          have := hall (name, v) (by simp)
          simp [hv] at this
      -- both directions of the false case end in contradictions

theorem validate_kwargs_loop_cons_none (validate : String → PyVal → Bool)
    (kwargs : List (String × PyVal)) (name : String) (names : List String)
    (hget : pyDictGet? kwargs name = Option.none) :
    validate_kwargs_loop validate kwargs (name :: names) =
      BindOutcome.validationError ("Missing kwarg for " ++ name ++ ".") := by
  rw [show validate_kwargs_loop validate kwargs (name :: names) =
      (match pyDictGet? kwargs name with
       | Option.none => BindOutcome.validationError ("Missing kwarg for " ++ name ++ ".")
       | some value =>
         if validate name value then validate_kwargs_loop validate kwargs names
         else BindOutcome.validationError "params schema") from rfl, hget]

theorem validate_kwargs_loop_cons_some (validate : String → PyVal → Bool)
    (kwargs : List (String × PyVal)) (name : String) (names : List String)
    (value : PyVal) (hget : pyDictGet? kwargs name = some value) :
    validate_kwargs_loop validate kwargs (name :: names) =
      (if validate name value then validate_kwargs_loop validate kwargs names
       else BindOutcome.validationError "params schema") := by
  rw [show validate_kwargs_loop validate kwargs (name :: names) =
      (match pyDictGet? kwargs name with
       | Option.none => BindOutcome.validationError ("Missing kwarg for " ++ name ++ ".")
       | some value =>
         if validate name value then validate_kwargs_loop validate kwargs names
         else BindOutcome.validationError "params schema") from rfl, hget]

theorem validate_kwargs_loop_shadow (validate : String → PyVal → Bool)
    (n : String) (v : PyVal) :
    ∀ (names : List String) (kwargs : List (String × PyVal)),
      n ∉ names →
      validate_kwargs_loop validate ((n, v) :: kwargs) names =
        validate_kwargs_loop validate kwargs names := by
  intro names
  induction names with
  | nil => intro kwargs _; rfl
  | cons m ms ih =>
    intro kwargs hnot
    have hmn : ¬ n = m := fun h => hnot (by simp [h])
    have hget : pyDictGet? ((n, v) :: kwargs) m = pyDictGet? kwargs m := by
      simp [pyDictGet?, hmn]
    have htail : n ∉ ms := fun h => hnot (by simp [h])
    cases hw : pyDictGet? kwargs m with
    | none =>
      rw [validate_kwargs_loop_cons_none validate _ m ms (hget.trans hw),
        validate_kwargs_loop_cons_none validate _ m ms hw]
    | some w =>
      rw [validate_kwargs_loop_cons_some validate _ m ms w (hget.trans hw),
        validate_kwargs_loop_cons_some validate _ m ms w hw]
      cases hvw : validate m w with
      | true => rw [if_pos rfl, if_pos rfl, ih kwargs htail]
      | false => rw [if_neg (by decide), if_neg (by decide)]

theorem validate_kwargs_loop_zip_ok_iff (validate : String → PyVal → Bool) :
    ∀ (names : List String) (vals : List PyVal),
      names.length = vals.length →
      names.Nodup →
      (validate_kwargs_loop validate (names.zip vals) names = BindOutcome.ok ↔
        ∀ p ∈ names.zip vals, validate p.1 p.2 = true) := by
  intro names
  induction names with
  | nil =>
    intro vals hlen _
    simp [validate_kwargs_loop]
  | cons name ns ih =>
    intro vals hlen hnd
    cases vals with
    | nil => simp at hlen
    | cons v vs =>
      rw [List.nodup_cons] at hnd
      rw [List.zip_cons_cons]
      have hget : pyDictGet? ((name, v) :: ns.zip vs) name = some v := by
        simp [pyDictGet?]
      rw [validate_kwargs_loop_cons_some validate _ name ns v hget]
      rw [validate_kwargs_loop_shadow validate name v ns (ns.zip vs) hnd.1]
      cases hv : validate name v with
      | true =>
        rw [if_pos rfl, ih vs (by simpa using hlen) hnd.2]
        constructor
        · intro hall p hp
          rcases List.mem_cons.mp hp with hp | hp
          · rw [hp]; exact hv
          · exact hall p hp
        · intro hall p hp
          exact hall p (by simp [hp])
      | false =>
        rw [if_neg (by decide)]
        constructor
        · intro hcon
          exact absurd hcon (by simp)
        · intro hall
          exfalso
          have hhead := hall (name, v) (by simp)
          rw [hv] at hhead
          exact absurd hhead (by decide)

/-- C4 counterexample: one string parameter whose schema accepts everything;
the argument value is the string missing. Keyword binding accepts, positional
binding rejects it as a missing argument, because the fill sentinel of
zip_longest collides with the real value. -/
theorem c4_counterexample :
    assert_valid_rpc_request (fun _ _ => true) ["key"] [PyVal.str "missing"] [] =
      BindOutcome.validationError "Missing arg for key." ∧
    assert_valid_rpc_request (fun _ _ => true) ["key"] [] [("key", PyVal.str "missing")] =
      BindOutcome.ok :=
  ⟨rfl, rfl⟩

/-- C4 amended: for a method with parameter names n1..nk (distinct) and values
v1..vk none of which is the string missing, positional binding accepts
exactly when keyword binding of the same values under the parameter names
accepts; when some value is the string missing the two can differ (see the
counterexample). -/
theorem c4_binding_equivalence_amended (validate : String → PyVal → Bool)
    (paramNames : List String) (vals : List PyVal)
    (hlen : paramNames.length = vals.length)
    (hnd : paramNames.Nodup)
    (hnomiss : ∀ v ∈ vals, pyEqStr v "missing" = false) :
    (assert_valid_rpc_request validate paramNames vals [] = BindOutcome.ok ↔
     assert_valid_rpc_request validate paramNames [] (paramNames.zip vals) =
       BindOutcome.ok) := by
  cases hvals : vals with
  | nil =>
    subst hvals
    have hnames : paramNames = [] := List.length_eq_zero.mp hlen
    subst hnames
    rfl
  | cons v vs =>
    subst hvals
    cases hnames : paramNames with
    | nil => rw [hnames] at hlen; simp at hlen
    | cons name ns =>
      subst hnames
      have hzlen : ((name :: ns).zip (v :: vs)).length = (name :: ns).length := by
        rw [List.length_zip, hlen]
        simp
      have hpos : assert_valid_rpc_request validate (name :: ns) (v :: vs) [] =
          validate_args_loop validate (name :: ns) (v :: vs) := by
        unfold assert_valid_rpc_request
        rw [if_neg (by simp), if_pos (by simp), if_neg (by omega)]
      have hkw : assert_valid_rpc_request validate (name :: ns) []
            ((name :: ns).zip (v :: vs)) =
          validate_kwargs_loop validate ((name :: ns).zip (v :: vs)) (name :: ns) := by
        unfold assert_valid_rpc_request
        rw [if_neg (by simp), if_neg (by simp),
          if_pos (by simp [List.zip_cons_cons]), if_neg (by rw [hzlen]; omega)]
      rw [hpos, hkw]
      rw [validate_args_loop_ok_iff validate _ _ hlen hnomiss]
      rw [validate_kwargs_loop_zip_ok_iff validate _ _ hlen hnd]

/-- Witness for C4 with one felt-string parameter bound to 0x1. -/
theorem c4_witness :
    assert_valid_rpc_request (fun _ v => pyEqStr v "0x1") ["block_hash"]
        [PyVal.str "0x1"] [] = BindOutcome.ok ↔
    assert_valid_rpc_request (fun _ v => pyEqStr v "0x1") ["block_hash"] []
        [("block_hash", PyVal.str "0x1")] = BindOutcome.ok :=
  c4_binding_equivalence_amended (fun _ v => pyEqStr v "0x1") ["block_hash"]
    [PyVal.str "0x1"] rfl (by decide) (by decide)

/-! ## Claim C1 -/

theorem rpc_transaction_keys (tx : TransactionSpecificInfo) :
    (rpc_transaction tx).map Prod.fst =
      ["contract_address", "entry_point_selector", "calldata", "max_fee", "txn_hash"] := by
  cases tx with
  | invoke t => rfl
  | deploy t => rfl

theorem rpc_transaction_keys_nodup (tx : TransactionSpecificInfo) :
    ((rpc_transaction tx).map Prod.fst).Nodup := by
  rw [rpc_transaction_keys]
  decide

theorem receipt_has_actual_fee (r : TransactionReceipt) :
    pyDictHasKey (rpc_transaction_receipt r) "actual_fee" = true := rfl

/-- Inversion of a successful get_transaction_receipt: the store held a
receipt and the result is its translation. -/
theorem get_transaction_receipt_ok (s : DevnetState) (h : String) (d : PyDict)
    (hok : get_transaction_receipt s h = .ok d) :
    ∃ r, s.receipts h = some r ∧ d = rpc_transaction_receipt r := by
  unfold get_transaction_receipt at hok
  split at hok
  next => simp at hok
  next r hr =>
    split at hok
    next => simp at hok
    next =>
      injection hok with h2
      exact ⟨r, hr, h2.symm⟩

/-- Each successful full_transactions run pairs the transactions, in order,
with the dict spreading the fetched receipt DTO first and the transaction DTO
second. -/
theorem full_transactions_spec (s : DevnetState) :
    ∀ (txs : List TransactionSpecificInfo) (entries : List PyDict),
      full_transactions s txs = .ok entries →
      List.Forall₂
        (fun tx entry =>
          ∃ receiptDto : PyDict,
            get_transaction_receipt s
              ((pyDictGet? (rpc_transaction tx) "txn_hash").getD PyVal.none).asStr =
              .ok receiptDto ∧
            entry = pyDictMerge receiptDto (rpc_transaction tx))
        txs entries := by
  intro txs
  induction txs with
  | nil =>
    intro entries hok
    unfold full_transactions at hok
    injection hok with h
    rw [← h]
    exact List.Forall₂.nil
  | cons tx rest ih =>
    intro entries hok
    unfold full_transactions at hok
    split at hok
    next => simp at hok
    next receipt hrec =>
      split at hok
      next => simp at hok
      next tail htail =>
        injection hok with h
        rw [← h]
        exact List.Forall₂.cons ⟨receipt, hrec, rfl⟩ (ih tail htail)

/-- C1 amended: under FULL_TXN_AND_RECEIPTS the translated block carries, in
the original transaction order, one merged dict per transaction: the union of
the receipt-DTO and transaction-DTO fields (actual_fee in particular is
present), fetched through get_transaction_receipt on the transaction's
txn_hash, with the transaction DTO's value - not the receipt's - winning on
any key present in both. -/
theorem c1_full_txn_and_receipts (s : DevnetState) (b : StarknetBlock)
    (dto : RpcBlock) (hok : rpc_block s b "FULL_TXN_AND_RECEIPTS" = .ok dto) :
    ∃ entries : List PyDict,
      dto.transactions = entries.map PyVal.dict ∧
      List.Forall₂
        (fun tx entry =>
          ∃ receiptDto : PyDict,
            get_transaction_receipt s
              ((pyDictGet? (rpc_transaction tx) "txn_hash").getD PyVal.none).asStr =
              .ok receiptDto ∧
            entry = pyDictMerge receiptDto (rpc_transaction tx) ∧
            (∀ k, pyDictHasKey entry k =
              (pyDictHasKey receiptDto k || pyDictHasKey (rpc_transaction tx) k)) ∧
            pyDictHasKey entry "actual_fee" = true ∧
            (∀ k, pyDictHasKey (rpc_transaction tx) k = true →
              pyDictGet? entry k = pyDictGet? (rpc_transaction tx) k))
        b.transactions entries := by
  obtain ⟨txs, oldr, htxs, holdr, hdor, hdnr, hdtx⟩ :=
    rpc_block_ok_fields s b "FULL_TXN_AND_RECEIPTS" dto hok
  unfold block_transactions at htxs
  rw [if_neg (by decide), if_neg (by decide), if_pos rfl] at htxs
  split at htxs
  next => simp at htxs
  next l hl =>
    injection htxs with h2
    refine ⟨l, by rw [hdtx, ← h2], ?_⟩
    have hcore := full_transactions_spec s b.transactions l hl
    refine List.Forall₂.imp ?_ hcore
    intro tx entry hpe
    obtain ⟨rdto, hrec, hentry⟩ := hpe
    obtain ⟨r, hrstore, hrdto⟩ := get_transaction_receipt_ok s _ rdto hrec
    refine ⟨rdto, hrec, hentry, ?_, ?_, ?_⟩
    · intro k
      rw [hentry]
      exact pyDictHasKey_merge (rpc_transaction tx) rdto k
    · rw [hentry, pyDictHasKey_merge, hrdto, receipt_has_actual_fee, Bool.true_or]
    · intro k hk
      obtain ⟨v, hv⟩ := (pyDictHasKey_iff_get? (rpc_transaction tx) k).mp hk
      rw [hentry, hv]
      exact pyDictGet?_merge_right_some (rpc_transaction tx) rdto k v
        (rpc_transaction_keys_nodup tx) hv

/-- The invoke transaction of the C1 scenario, hash 1. -/
def txC1 : TransactionSpecificInfo :=
  .invoke { contract_address := 3, entry_point_selector := 4, calldata := [],
            max_fee := 0, transaction_hash := 1 }

/-- The receipt the store returns for hash 0x01; its own transaction_hash
field reads 2, so the receipt DTO and the transaction DTO disagree on
txn_hash and the merge direction becomes observable. -/
def recC1 : TransactionReceipt :=
  { transaction_hash := 2, status := some TransactionStatus.ACCEPTED_ON_L2,
    actual_fee := some 5, l2_to_l1_messages := [],
    l1_to_l2_consumed_message := Option.none, events := [] }

def blockC1 : StarknetBlock :=
  { block_hash := 6, parent_block_hash := 0, block_number := some 0,
    status := BlockStatus.ACCEPTED_ON_L2, timestamp := 50, state_root := [7],
    transactions := [txC1] }

def stateC1 : DevnetState :=
  { emptyState with receipts := fun h => if h = "0x01" then some recC1 else Option.none }

/-- C1 counterexample: the merged entry keeps the transaction DTO's txn_hash
0x01; merging in the claimed direction (receipt fields overriding) would give
the receipt's 0x02 instead, so the returned list is not the claimed one. -/
theorem c1_counterexample :
    (rpc_block stateC1 blockC1 "FULL_TXN_AND_RECEIPTS").map RpcBlock.transactions =
      .ok [PyVal.dict (pyDictMerge (rpc_transaction_receipt recC1) (rpc_transaction txC1))] ∧
    (pyDictGet? (pyDictMerge (rpc_transaction_receipt recC1) (rpc_transaction txC1))
        "txn_hash").map PyVal.asStr = some "0x01" ∧
    (pyDictGet? (pyDictMerge (rpc_transaction txC1) (rpc_transaction_receipt recC1))
        "txn_hash").map PyVal.asStr = some "0x02" ∧
    ¬ (rpc_block stateC1 blockC1 "FULL_TXN_AND_RECEIPTS").map RpcBlock.transactions =
        .ok [PyVal.dict (pyDictMerge (rpc_transaction txC1) (rpc_transaction_receipt recC1))] := by
  refine ⟨rfl, rfl, rfl, ?_⟩
  intro hclaim
  have hactual : (rpc_block stateC1 blockC1 "FULL_TXN_AND_RECEIPTS").map RpcBlock.transactions =
      .ok [PyVal.dict (pyDictMerge (rpc_transaction_receipt recC1) (rpc_transaction txC1))] := rfl
  rw [hactual] at hclaim
  injection hclaim with h2
  injection h2 with h3 h4
  injection h3 with h5
  have e1 : (pyDictGet? (pyDictMerge (rpc_transaction_receipt recC1) (rpc_transaction txC1))
      "txn_hash").map PyVal.asStr = some "0x01" := rfl
  rw [h5] at e1
  have e2 : (pyDictGet? (pyDictMerge (rpc_transaction txC1) (rpc_transaction_receipt recC1))
      "txn_hash").map PyVal.asStr = some "0x02" := rfl
  rw [e2] at e1
  exact absurd e1 (by decide)

/-- The block DTO rpc_block produces in the C1 scenario. -/
def dtoC1 : RpcBlock :=
  { block_hash := "0x06", parent_hash := "0x0", block_number := 0,
    status := "ACCEPTED_ON_L2", sequencer := "0x0", new_root := "0x07",
    old_root := rpc_root (bytesHex (List.replicate 32 0)),
    accepted_time := 50,
    transactions := [PyVal.dict (pyDictMerge (rpc_transaction_receipt recC1)
      (rpc_transaction txC1))] }

/-- Witness for C1 on the one-transaction block. -/
theorem c1_witness :
    ∃ entries : List PyDict,
      dtoC1.transactions = entries.map PyVal.dict ∧
      List.Forall₂
        (fun tx entry =>
          ∃ receiptDto : PyDict,
            get_transaction_receipt stateC1
              ((pyDictGet? (rpc_transaction tx) "txn_hash").getD PyVal.none).asStr =
              .ok receiptDto ∧
            entry = pyDictMerge receiptDto (rpc_transaction tx) ∧
            (∀ k, pyDictHasKey entry k =
              (pyDictHasKey receiptDto k || pyDictHasKey (rpc_transaction tx) k)) ∧
            pyDictHasKey entry "actual_fee" = true ∧
            (∀ k, pyDictHasKey (rpc_transaction tx) k = true →
              pyDictGet? entry k = pyDictGet? (rpc_transaction tx) k))
        blockC1.transactions entries :=
  c1_full_txn_and_receipts stateC1 blockC1 dtoC1 rfl

end Devnet
